import Mathlib

/-!
Verification of the clock/reset generator (`_CRG`) and `BaseSoC` composition of
`litex_boards/targets/crosslink_nx_evn.py` (the `crosslink_nx_eval.py` variant is
line-for-line identical on the parts modelled here).

The Migen constructs are shallowly embedded:
  * `por_count` is a 16-bit down-counter (`Signal(16, reset=2**16-1)`): modelled
    as a `Nat` kept below `2^16`, with wrapping subtraction made explicit.
  * combinational assignments (`self.comb += ...`) become Lean functions of the
    signals they read.
  * the synchronous block `self.sync.por += If(~por_done, por_count.eq(por_count - 1))`
    becomes a step function on the counter value; a run of the `por` clock domain
    is the iteration of that step from the reset value.
  * `AsyncResetSynchronizer(cd, expr)` drives the reset of domain `cd` from the
    boolean expression `expr`; the reset condition is modelled combinationally.
  * `platform.add_period_constraint` calls are recorded as a list of rational
    periods (Python float literals such as `1e9` are modelled as exact rationals).
-/

namespace CrosslinkNxEvn

/-- `kB = 1024` from the source header. -/
def kB : Nat := 1024

/-- `hf_clk_freq = 25e6`: frequency of the built-in oscillator feeding `por`. -/
def hf_clk_freq : ℚ := 25000000

/-- Reset value of `por_count`: `Signal(16, reset=2**16-1)`. -/
def por_count_reset : Nat := 2 ^ 16 - 1

/-- `self.comb += por_done.eq(por_count == 0)`. -/
def por_done (por_count : Nat) : Bool := por_count == 0

/-- One `por` clock edge: `self.sync.por += If(~por_done, por_count.eq(por_count - 1))`.
The subtraction is on a 16-bit signal, hence wraps modulo `2^16`. -/
def por_step (por_count : Nat) : Nat :=
  if por_done por_count then por_count else (por_count + (2 ^ 16 - 1)) % 2 ^ 16

/-- Value of `por_count` after `n` `por` clock edges from power-up. -/
def por_run : Nat → Nat
  | 0 => por_count_reset
  | n + 1 => por_step (por_run n)

/-- Reset condition of the `por` domain:
`AsyncResetSynchronizer(self.cd_por, ~self.rst_n)` where `rst_n` is the `gsrn` pad. -/
def por_rst (rst_n : Bool) : Bool := !rst_n

/-- Reset condition of the `sys` domain:
`AsyncResetSynchronizer(self.cd_sys, ~self.sys_pll.locked | ~por_done)`.
`locked` is the PLL lock signal, an external input. -/
def sys_rst (locked : Bool) (por_count : Nat) : Bool :=
  (!locked) || (!por_done por_count)

/-- The period constraints registered on the `sys` clock by `_CRG.__init__`:
exactly one call, `platform.add_period_constraint(self.cd_sys.clk, 1e9/sys_clk_freq)`. -/
def add_period_constraint_calls (sys_clk_freq : ℚ) : List ℚ :=
  [1000000000 / sys_clk_freq]

/-- `SoCCore.mem_map` as set by the `BaseSoC` class body. -/
def mem_map : List (String × Nat) :=
  [("rom", 0x00000000), ("sram", 0x40000000), ("csr", 0xf0000000)]

/-- `self.mem_map[name]` lookup. -/
def mem_map_lookup (name : String) : Option Nat :=
  (mem_map.find? (fun p => p.1 == name)).map Prod.snd

/-- A memory region registered via `self.register_mem(name, origin, bus, size)`,
together with the data width of the block-RAM driving it (`NXLRAM(width, size)`). -/
structure MemRegion where
  name : String
  origin : Nat
  width : Nat
  size : Nat
  deriving DecidableEq, Repr

/-- The observable configuration effects of `BaseSoC.__init__`. -/
structure BaseSoCModel where
  integrated_sram_size : Nat
  mem_regions : List MemRegion
  led_requests : List Nat
  led_chaser_freq : ℚ
  crg_period_constraints : List ℚ
  deriving DecidableEq

/-- Shallow embedding of `BaseSoC.__init__(sys_clk_freq, **kwargs)`.
`kwargs_integrated_sram_size` is the caller-supplied `integrated_sram_size`
entry of `kwargs` (if any); the body overwrites it with
`kwargs["integrated_sram_size"] = 0` before calling `SoCCore.__init__`. -/
def baseSoC (sys_clk_freq : ℚ) (kwargs_integrated_sram_size : Option Nat) : BaseSoCModel :=
  let _ := kwargs_integrated_sram_size
  let overridden_sram_size : Nat := 0
  let size := 128 * kB
  { integrated_sram_size := overridden_sram_size
    mem_regions :=
      match mem_map_lookup "sram" with
      | some origin => [⟨"sram", origin, 32, size⟩]
      | none => []
    led_requests := List.range 14
    led_chaser_freq := sys_clk_freq
    crg_period_constraints := add_period_constraint_calls sys_clk_freq }

/-- Python `int(x)` applied to a (real-valued) number: truncation toward zero. -/
def pyInt (q : ℚ) : ℤ := if 0 ≤ q then ⌊q⌋ else ⌈q⌉

/-- `--sys-clk-freq` default: `default=75e6`. -/
def default_sys_clk_freq : ℚ := 75000000

/-- Numeric value of a scientific-notation string `"<m>e<e>"` such as `"75e6"`. -/
def sciValue (m : ℤ) (e : ℕ) : ℚ := (m : ℚ) * 10 ^ e

/-- The frequency `main` passes to `BaseSoC`: `int(float(args.sys_clk_freq))`,
where the argument string's numeric value is `v` (Python `float` modelled as an
exact rational). -/
def main_used_freq (v : ℚ) : ℤ := pyInt v

/-! ### Helper lemmas about the power-on counter -/

/-- Closed form of the counter run: after `n` `por` edges the counter holds
`2^16 - 1 - n` (truncated subtraction: it parks at `0` once exhausted). -/
theorem por_run_eq (n : ℕ) : por_run n = 2 ^ 16 - 1 - n := by
  induction n with
  | zero => rfl
  | succ n ih =>
    show por_step (por_run n) = _
    rw [ih]
    unfold por_step por_done
    split <;> rename_i h <;> simp only [beq_iff_eq] at h <;> omega

theorem por_run_lt (n : ℕ) : por_run n < 2 ^ 16 := by
  rw [por_run_eq]; omega

/-! ### Claim theorems -/

/-- C1: in every reachable state of a run (any number `n` of `por` edges, any PLL
lock value, any requested `sys_clk_freq`), the `sys` domain reset is asserted
whenever the PLL lock signal is false or the power-on counter is not done, and it
can be de-asserted only when the counter is done and the PLL reports locked. -/
theorem c1_sys_rst_gating (sys_clk_freq : ℚ) (n : ℕ) (locked : Bool) :
    ((locked = false ∨ por_done (por_run n) = false) →
      sys_rst locked (por_run n) = true) ∧
    (sys_rst locked (por_run n) = false →
      por_done (por_run n) = true ∧ locked = true) := by
  cases locked <;> cases h : por_done (por_run n) <;> simp_all [sys_rst]

theorem c1_sys_rst_gating_witness : sys_rst false (por_run 0) = true :=
  (c1_sys_rst_gating 75000000 0 false).1 (Or.inl rfl)

/-- C2: in every reachable state fewer than `65535` `por` edges after power-up
(the counter's initial value), the `sys` reset is asserted regardless of the PLL
lock signal. -/
theorem c2_sys_rst_holds_65535_cycles (n : ℕ) (hn : n < por_count_reset)
    (locked : Bool) : sys_rst locked (por_run n) = true := by
  have h := por_run_eq n
  have hne : por_run n ≠ 0 := by
    unfold por_count_reset at hn; omega
  cases locked <;> simp [sys_rst, por_done, hne]

theorem c2_sys_rst_holds_65535_cycles_witness :
    sys_rst true (por_run 0) = true :=
  c2_sys_rst_holds_65535_cycles 0 (by decide) true

/-- C3: the power-on counter is a 16-bit register initialized to `65535`; on a
`por` edge any nonzero 16-bit value decreases by exactly one; once the run
reaches zero it stays zero forever; and the done flag holds exactly when the
counter is zero. -/
theorem c3_por_counter_behaviour :
    por_run 0 = 65535 ∧
    (∀ n, por_run n < 2 ^ 16) ∧
    (∀ c, c < 2 ^ 16 → c ≠ 0 → por_step c = c - 1) ∧
    (∀ n m, por_run n = 0 → n ≤ m → por_run m = 0) ∧
    (∀ c, por_done c = true ↔ c = 0) := by
  refine ⟨rfl, por_run_lt, ?_, ?_, ?_⟩
  · intro c hc hne
    unfold por_step por_done
    split <;> rename_i h <;> simp only [beq_iff_eq] at h <;> omega
  · intro n m hn hnm
    have h1 := por_run_eq n
    have h2 := por_run_eq m
    omega
  · intro c
    simp [por_done]

theorem c3_por_counter_behaviour_witness : por_step 100 = 99 :=
  c3_por_counter_behaviour.2.2.1 100 (by decide) (by decide)

/-- C4: within a single run the counter never wraps and never re-arms: every
step from a 16-bit state is non-increasing, a zero state steps to zero, and
along the run each successive value is at most the previous one. -/
theorem c4_por_counter_no_wrap_no_rearm (n : ℕ) (c : ℕ) (hc : c < 2 ^ 16) :
    por_run (n + 1) ≤ por_run n ∧
    por_step c ≤ c ∧
    (c = 0 → por_step c = 0) := by
  refine ⟨?_, ?_, ?_⟩
  · have h1 := por_run_eq n
    have h2 := por_run_eq (n + 1)
    omega
  · unfold por_step por_done
    split <;> rename_i h <;> simp only [beq_iff_eq] at h <;> omega
  · intro h
    subst h
    rfl

theorem c4_por_counter_no_wrap_no_rearm_witness : por_step 0 = 0 :=
  (c4_por_counter_no_wrap_no_rearm 5 0 (by decide)).2.2 rfl

/-- C5: for every requested `sys_clk_freq`, constructing `_CRG` registers
exactly one period constraint on the `sys` clock, and its value is
`1e9 / sys_clk_freq` nanoseconds, i.e. `1e9` times the reciprocal of the
requested frequency. -/
theorem c5_period_constraint (sys_clk_freq : ℚ) :
    (add_period_constraint_calls sys_clk_freq).length = 1 ∧
    ∀ p ∈ add_period_constraint_calls sys_clk_freq,
      p = 1000000000 * (1 / sys_clk_freq) := by
  refine ⟨rfl, ?_⟩
  intro p hp
  simp only [add_period_constraint_calls, List.mem_singleton] at hp
  rw [hp]
  ring

theorem c5_period_constraint_witness :
    (40 / 3 : ℚ) = 1000000000 * (1 / 75000000) :=
  (c5_period_constraint 75000000).2 (40 / 3) (by norm_num [add_period_constraint_calls])

/-- C6: requesting `sys_clk_freq = 75e6` registers the period constraint
`1e9 / 75e6 = 40/3` ns, which is within `0.01` ns of `13.33` ns; and running
with no `--sys-clk-freq` flag uses the default `75e6`, giving the same used
frequency and an identical `BaseSoC` configuration as explicitly passing `75e6`. -/
theorem c6_default_75mhz :
    add_period_constraint_calls 75000000 = [40 / 3] ∧
    |(40 / 3 : ℚ) - 1333 / 100| < 1 / 100 ∧
    main_used_freq default_sys_clk_freq = 75000000 ∧
    main_used_freq default_sys_clk_freq = main_used_freq (sciValue 75 6) ∧
    baseSoC default_sys_clk_freq none = baseSoC (sciValue 75 6) none := by
  have hval : sciValue 75 6 = default_sys_clk_freq := by
    norm_num [sciValue, default_sys_clk_freq]
  refine ⟨?_, by rw [abs_sub_lt_iff]; norm_num, ?_, by rw [hval], by rw [hval]⟩
  · norm_num [add_period_constraint_calls]
  · have : ((75000000 : ℤ) : ℚ) = default_sys_clk_freq := by
      norm_num [default_sys_clk_freq]
    simp [main_used_freq, pyInt, default_sys_clk_freq, ← this, Int.floor_intCast]

/-- C7: the `por` domain reset is asserted exactly when the active-low `gsrn`
input is asserted (driven low): the reset equals the inversion of `gsrn`. -/
theorem c7_por_rst_inverts_gsrn (gsrn : Bool) :
    por_rst gsrn = !gsrn ∧ (por_rst gsrn = true ↔ gsrn = false) := by
  cases gsrn <;> simp [por_rst]

theorem c7_por_rst_inverts_gsrn_witness : por_rst false = true :=
  (c7_por_rst_inverts_gsrn false).2.mpr rfl

/-- C8: the frequency `main` uses is `int(float(value))`: a scientific-notation
value `m·10^e` is used exactly, and in general the fractional part of the
requested frequency is truncated toward zero (`|used| ≤ |v| < |used| + 1`, with
the sign preserved for nonnegative inputs). -/
theorem c8_freq_parse_truncation (v : ℚ) (m : ℤ) (e : ℕ) :
    main_used_freq (sciValue m e) = m * 10 ^ e ∧
    |((main_used_freq v : ℤ) : ℚ)| ≤ |v| ∧
    |v| < |((main_used_freq v : ℤ) : ℚ)| + 1 ∧
    (0 ≤ v → 0 ≤ main_used_freq v) := by
  refine ⟨?_, ?_, ?_, ?_⟩
  · have hcast : sciValue m e = ((m * 10 ^ e : ℤ) : ℚ) := by
      unfold sciValue
      push_cast
      ring
    unfold main_used_freq pyInt
    rw [hcast]
    split
    · exact Int.floor_intCast _
    · exact Int.ceil_intCast _
  · unfold main_used_freq pyInt
    split <;> rename_i h
    · rw [abs_of_nonneg h, abs_of_nonneg (by exact_mod_cast Int.floor_nonneg.mpr h)]
      exact Int.floor_le v
    · push_neg at h
      have hc : ⌈v⌉ ≤ 0 := Int.ceil_le.mpr (by exact_mod_cast h.le)
      rw [abs_of_neg h, abs_of_nonpos (by exact_mod_cast hc)]
      simpa using Int.le_ceil v
  · unfold main_used_freq pyInt
    split <;> rename_i h
    · rw [abs_of_nonneg h, abs_of_nonneg (by exact_mod_cast Int.floor_nonneg.mpr h)]
      exact Int.lt_floor_add_one v
    · push_neg at h
      have hc : ⌈v⌉ ≤ 0 := Int.ceil_le.mpr (by exact_mod_cast h.le)
      rw [abs_of_neg h, abs_of_nonpos (by exact_mod_cast hc)]
      have := Int.ceil_lt_add_one v
      push_cast at this ⊢
      linarith
  · intro h
    unfold main_used_freq pyInt
    rw [if_pos h]
    exact Int.floor_nonneg.mpr h

theorem c8_freq_parse_truncation_witness : 0 ≤ main_used_freq (755 / 10) :=
  (c8_freq_parse_truncation (755 / 10) 75 6).2.2.2 (by norm_num)

/-- C9: `BaseSoC` always forces the integrated SRAM size to `0`, whatever the
caller supplied in `kwargs`, and registers a single memory region named `sram`
of width 32 bits and size `128 kB = 131072` bytes at origin `0x40000000`. -/
theorem c9_sram_config (sys_clk_freq : ℚ) (kwargs_sram : Option Nat) :
    (baseSoC sys_clk_freq kwargs_sram).integrated_sram_size = 0 ∧
    (baseSoC sys_clk_freq kwargs_sram).mem_regions =
      [⟨"sram", 0x40000000, 32, 131072⟩] := by
  exact ⟨rfl, rfl⟩

/-- C10: `BaseSoC` requests exactly 14 `user_led` resources, at indices `0`
through `13` in strictly increasing order, and drives them from a single LED
chaser clocked at `sys_clk_freq`. -/
theorem c10_led_chaser (sys_clk_freq : ℚ) (kwargs_sram : Option Nat) :
    (baseSoC sys_clk_freq kwargs_sram).led_requests.length = 14 ∧
    (∀ i, ∀ h : i < (baseSoC sys_clk_freq kwargs_sram).led_requests.length,
      (baseSoC sys_clk_freq kwargs_sram).led_requests.get ⟨i, h⟩ = i) ∧
    (baseSoC sys_clk_freq kwargs_sram).led_requests.Sorted (· < ·) ∧
    (baseSoC sys_clk_freq kwargs_sram).led_chaser_freq = sys_clk_freq := by
  refine ⟨rfl, ?_, ?_, rfl⟩
  · intro i h
    simp [baseSoC, List.get_eq_getElem, List.getElem_range]
  · simpa [baseSoC] using List.sorted_lt_range 14

theorem c10_led_chaser_witness :
    (baseSoC 75000000 none).led_requests.get ⟨3, by decide⟩ = 3 :=
  (c10_led_chaser 75000000 none).2.1 3 (by decide)

end CrosslinkNxEvn
